import Mathlib

/-!
# Verification of the Festival-Scrapper-V2 crawl-and-extract pipeline

Shallow embedding of `src/scraper.py`.  Rendered markup is modelled by the
pieces of it the code actually inspects (pagination link texts, anchor
elements, the JSON-LD event block, the header block, the lineup list items);
a fetch or parse failure of a whole page is modelled by `Option` (`none` =
the unit raised).  Python strings are Lean `String`s; Python string
operations (`strip`, `title`, `replace`, `split`, `int(...)`,
`startswith`/`endswith`, `in`) are modelled character-faithfully below on
ASCII data (exotic Unicode whitespace/case and underscore digit grouping in
`int()` are not modelled; no input in this development uses them).
-/

set_option autoImplicit false

namespace Scraper

/-! ## Python string primitives -/

/-- Whitespace stripped by Python's default `str.strip()` (ASCII part). -/
def isPyWs (c : Char) : Bool :=
  c = ' ' || c = '\t' || c = '\n' || c = '\r' || c = '\x0b' || c = '\x0c'

/-- Models `str.strip()`: drop leading and trailing whitespace. -/
def pyStrip (s : String) : String :=
  String.mk (((s.data.dropWhile isPyWs).reverse.dropWhile isPyWs).reverse)

/-- Models `str.strip(', ')`: drop leading and trailing commas and spaces. -/
def pyStripCommaSpace (s : String) : String :=
  let mem : Char → Bool := fun c => c = ',' || c = ' '
  String.mk (((s.data.dropWhile mem).reverse.dropWhile mem).reverse)

/-- Helper for `str.title()`: the flag says whether the previous character
was alphabetic (i.e. we are inside a word). -/
def pyTitleAux : Bool → List Char → List Char
  | _, [] => []
  | inWord, c :: cs =>
    (if c.isAlpha then (if inWord then c.toLower else c.toUpper) else c)
      :: pyTitleAux c.isAlpha cs

/-- Models `str.title()`: capitalise the first letter of every alphabetic run,
lowercase the rest. -/
def pyTitle (s : String) : String :=
  String.mk (pyTitleAux false s.data)

/-- Models `str.replace('-', ' ')`. -/
def replaceDash (s : String) : String :=
  String.mk (s.data.map fun c => if c = '-' then ' ' else c)

/-- Models `str.split(sep)` for a one-character separator `c`. -/
def splitChar (c : Char) : List Char → List (List Char)
  | [] => [[]]
  | x :: xs =>
    if x = c then [] :: splitChar c xs
    else
      match splitChar c xs with
      | [] => [[x]]
      | g :: gs => (x :: g) :: gs

/-- Models `href.split('/')`. -/
def splitSlash (s : String) : List String :=
  (splitChar '/' s.data).map String.mk

/-- Does `needle` occur contiguously inside `hay`? -/
def containsSeq (needle : List Char) : List Char → Bool
  | [] => needle.isEmpty
  | c :: t => needle.isPrefixOf (c :: t) || containsSeq needle t

/-- Python `needle in hay` on strings. -/
def strContains (needle hay : String) : Bool :=
  containsSeq needle.data hay.data

/-- Python `s.endswith(suffix)`. -/
def endsWithStr (s suffix : String) : Bool :=
  suffix.data.isSuffixOf s.data

/-- Python `s.startswith(pre)`. -/
def startsWithStr (s pre : String) : Bool :=
  pre.data.isPrefixOf s.data

/-- Value of a list of decimal digit characters. -/
def digitsToNat (ds : List Char) : Nat :=
  ds.foldl (fun n c => 10 * n + (c.toNat - '0'.toNat)) 0

/-- Python `int(s)` on an already-stripped string: an optional sign followed
by at least one decimal digit parses, everything else raises `ValueError`
(modelled as `none`). -/
def pyInt? (s : String) : Option Int :=
  match s.data with
  | [] => none
  | '-' :: ds =>
    if ds ≠ [] ∧ ds.all Char.isDigit then some (-(digitsToNat ds : Int)) else none
  | '+' :: ds =>
    if ds ≠ [] ∧ ds.all Char.isDigit then some (digitsToNat ds : Int) else none
  | ds =>
    if ds.all Char.isDigit then some (digitsToNat ds : Int) else none

/-- Does the character list contain an occurrence of the separator `", "`? -/
def hasSep : List Char → Bool
  | [] => false
  | [_] => false
  | c₁ :: c₂ :: cs => (c₁ = ',' && c₂ = ' ') || hasSep (c₂ :: cs)

/-- Models `str.split(', ')` at the character level: scan left to right,
cutting at every occurrence of the comma-space separator. -/
def splitOnCS : List Char → List (List Char)
  | [] => [[]]
  | [c] => [[c]]
  | c₁ :: c₂ :: cs =>
    if c₁ = ',' ∧ c₂ = ' ' then [] :: splitOnCS cs
    else
      match splitOnCS (c₂ :: cs) with
      | [] => [[c₁]]
      | g :: gs => (c₁ :: g) :: gs

/-- Models `', '.join(artists)` (from `save_to_csv`, line 214). -/
def joinArtists : List String → String
  | [] => ""
  | [a] => a
  | a :: rest => a ++ ", " ++ joinArtists rest

/-- Re-reading the `Artists` CSV field: split it on `", "` (the spec's
round-trip reading procedure). -/
def splitArtists (s : String) : List String :=
  (splitOnCS s.data).map String.mk

/-! ## Data model -/

/-- An anchor element: its `href` attribute and its rendered text
(`get_text(strip=True)` is modelled by applying `pyStrip` to `text`). -/
structure Anchor where
  href : String
  text : String
deriving DecidableEq, Repr

/-- The `{'name': ..., 'url': ...}` entries of `get_festival_links`. -/
structure FestivalLink where
  name : String
  url : String
deriving DecidableEq, Repr

/-- The crawl loop's state: `seen_urls` (a set, modelled as a list queried
only by membership) and the accumulated `all_festivals` list. -/
structure CrawlState where
  seen : List String
  links : List FestivalLink
deriving DecidableEq, Repr

/-- The JSON-LD event block, reduced to the fields the code reads.
`address = some (locality, region)` models `location.address` resolving to a
dict (missing keys default to `""` exactly as `.get(..., '')` does);
`address = none` models the two non-dict cases (the `isinstance` check
failing, or the `.get` chain raising and being swallowed), both of which
leave `location` untouched. -/
structure JsonEvent where
  name : String
  startDate : String
  endDate : String
  address : Option (String × String)
deriving DecidableEq, Repr

/-- The `div.headerblock` contents: an optional `h1` text and the `p` texts
in document order. -/
structure HeaderBlock where
  h1 : Option String
  paragraphs : List String
deriving DecidableEq, Repr

/-- A rendered detail page, reduced to what `scrape_festival_details`
inspects. `jsonLd = none`: no `script[type=application/ld+json]`;
`jsonLd = some none`: the script is present but `json.loads` raises (or the
result has no `.get`), so the `except` swallows everything;
`jsonLd = some (some ev)`: the block parses to event `ev`.
`lineup = none`: no `div.hublineup`; otherwise the `li` texts in order. -/
structure DetailMarkup where
  jsonLd : Option (Option JsonEvent)
  headerBlock : Option HeaderBlock
  lineup : Option (List String)
deriving DecidableEq, Repr

/-- The `festival_data` dict of `scrape_festival_details`. -/
structure FestivalRecord where
  name : String
  date : String
  location : String
  artists : List String
deriving DecidableEq, Repr

/-- The initial record `{'name': '', 'date': '', 'location': '', 'artists': []}`. -/
def emptyRecord : FestivalRecord := ⟨"", "", "", []⟩

/-- One CSV row written by `save_to_csv` (columns Festival, Date, Location,
Artists; the csv layer is assumed to transport field strings faithfully). -/
structure CsvRow where
  festival : String
  date : String
  location : String
  artists : String
deriving DecidableEq, Repr

/-! ## `get_total_pages` (scraper.py lines 52-65) -/

/-- The numeric page tokens: each `a.page-numbers` text is stripped and fed
to `int(...)`; `ValueError` is swallowed (`filterMap`). -/
def parsedTokens (texts : List String) : List Int :=
  texts.filterMap fun t => pyInt? (pyStrip t)

/-- Model of `get_total_pages`: the pagination control is modelled as
`Option (List String)` — `none` when no `ul.page-numbers` exists, otherwise
the list of `a.page-numbers` link texts. Returns `max(page_numbers)` when
any token parses, else 1. -/
def get_total_pages (pagination : Option (List String)) : Int :=
  match pagination with
  | none => 1
  | some texts =>
    match parsedTokens texts with
    | [] => 1
    | n :: ns => ns.foldl max n

/-! ## `get_festival_links` (scraper.py lines 67-126) -/

/-- The hard-coded site origin prepended to root-relative hrefs (line 110). -/
def origin : String := "https://www.musicfestivalwizard.com"

/-- Lines 109-110: only targets beginning with `/` are resolved. -/
def resolveHref (href : String) : String :=
  if startsWithStr href "/" then origin ++ href else href

/-- Models `href.split('/')[-2]` (line 116).  A candidate href contains `/` (it
contains `/festivals/`), so the split has at least two components and the
negative index never raises; `getD` with default `""` encodes that. -/
def penultimateSeg (href : String) : String :=
  let parts := splitSlash href
  parts.getD (parts.length - 2) ""

/-- Lines 114-117: the stored entry for an anchor whose (already resolved)
href is `href`.  The label is the stripped anchor text when it has length
at least 3, else derived from `href.split('/')[-2]`. -/
def mkLinkResolved (href text : String) : FestivalLink :=
  let nm := pyStrip text
  { name := if nm = "" ∨ nm.length < 3
            then pyTitle (replaceDash (penultimateSeg href))
            else nm,
    url := href }

/-- The link an anchor contributes before deduplication. -/
def anchorLink (a : Anchor) : FestivalLink :=
  mkLinkResolved (resolveHref a.href) a.text

/-- The `find_all` filter (line 103): `href` is truthy and contains
`/festivals/`. -/
def isCandidate (a : Anchor) : Bool :=
  strContains "/festivals/" a.href

/-- Line 107's skip test: `not href or href.endswith('/festivals/')`. -/
def anchorExcluded (a : Anchor) : Bool :=
  a.href = "" || endsWithStr a.href "/festivals/"

/-- Lines 105-117: process one candidate anchor against the crawl state. -/
def processAnchor (st : CrawlState) (a : Anchor) : CrawlState :=
  if anchorExcluded a then st
  else
    let href := resolveHref a.href
    if href ∈ st.seen then st
    else
      { seen := href :: st.seen,
        links := st.links ++ [mkLinkResolved href a.text] }

/-- One iteration of the page loop body after a successful fetch: run the
anchor filter and fold the per-anchor processing. -/
def collectPage (st : CrawlState) (anchors : List Anchor) : CrawlState :=
  (anchors.filter isCandidate).foldl processAnchor st

/-- The page loop of `get_festival_links` (lines 88-126): each element of
`pages` is one listing page's anchors, or `none` when fetching/parsing that
page raised (the `except` logs and `continue`s, leaving the state
untouched).  Returns `all_festivals`. -/
def crawlStep (st : CrawlState) (p : Option (List Anchor)) : CrawlState :=
  match p with
  | none => st
  | some anchors => collectPage st anchors

/-- The returned `all_festivals` list of `get_festival_links`. -/
def get_festival_links (pages : List (Option (List Anchor))) : List FestivalLink :=
  (pages.foldl crawlStep ⟨[], []⟩).links

/-! ## `scrape_festival_details` (scraper.py lines 128-184) -/

/-- Lines 140-157, the JSON-LD stage, applied to the record built so far. -/
def structuredStage (rec : FestivalRecord) (jsonLd : Option (Option JsonEvent)) :
    FestivalRecord :=
  match jsonLd with
  | none => rec
  | some none => rec
  | some (some ev) =>
    let name := ev.name
    let date :=
      if ev.startDate ≠ "" ∧ ev.endDate ≠ "" ∧ ev.startDate ≠ ev.endDate then
        ev.startDate ++ " - " ++ ev.endDate
      else if ev.startDate ≠ "" then ev.startDate
      else rec.date
    let location :=
      match ev.address with
      | some (locality, region) => pyStripCommaSpace (locality ++ ", " ++ region)
      | none => rec.location
    { rec with name := name, date := date, location := location }

/-- Lines 159-170, the HTML fallback stage: runs only when `name` or `date`
is still falsy; inside it, `name` is assigned from the `h1` unconditionally,
while `date`/`location` use `x = x or new` and so keep non-empty values. -/
def fallbackStage (rec : FestivalRecord) (headerBlock : Option HeaderBlock) :
    FestivalRecord :=
  if rec.name = "" ∨ rec.date = "" then
    match headerBlock with
    | none => rec
    | some hb =>
      let name :=
        match hb.h1 with
        | some t => pyStrip t
        | none => rec.name
      let date :=
        match hb.paragraphs with
        | p :: _ => if rec.date = "" then pyStrip p else rec.date
        | [] => rec.date
      let location :=
        match hb.paragraphs with
        | _ :: p :: _ => if rec.location = "" then pyStrip p else rec.location
        | _ => rec.location
      { rec with name := name, date := date, location := location }
  else rec

/-- Lines 172-178: append every non-empty stripped `li` text. -/
def lineupStage (rec : FestivalRecord) (lineup : Option (List String)) :
    FestivalRecord :=
  match lineup with
  | none => rec
  | some items =>
    { rec with artists := rec.artists ++ (items.map pyStrip).filter (· ≠ "") }

/-- Model of `scrape_festival_details`: `none` models the fetch raising before any
parsing — the page-level `except` (lines 182-184) then returns the record
exactly as initialised. -/
def scrape_festival_details (markup : Option DetailMarkup) : FestivalRecord :=
  match markup with
  | none => emptyRecord
  | some m =>
    lineupStage (fallbackStage (structuredStage emptyRecord m.jsonLd) m.headerBlock)
      m.lineup

/-! ## `save_to_csv` (scraper.py lines 204-220) and the run (main, lines 225-263) -/

/-- Model of `save_to_csv`: one row per record, `Artists` joined with `', '`. -/
def save_to_csv (records : List FestivalRecord) : List CsvRow :=
  records.map fun r => ⟨r.name, r.date, r.location, joinArtists r.artists⟩

/-- Models `range(1, total + 1)` over the Python int `total` (empty when
`total < 1`). -/
def pageIdxs (total : Int) : List Nat :=
  (List.range total.toNat).map (· + 1)

/-- The whole run, as `main` wires it with `max_pages = None`:
`discovery` is the first load of the listing page (lines 77-80), which is
*not* inside any `try` — `none` (a fetch failure there) propagates and the
run aborts (outer `none`).  Otherwise the pagination bound is discovered,
pages `1..total` are fetched through `pageFetch` (each fallible,
per-page-caught), links are collected, and — only when some link was found
(line 237's early return otherwise, inner `none`) — every link's detail page
is scraped through `detailFetch`, records with empty names are dropped
(line 246) and the rest exported. -/
def runScraper (discovery : Option (Option (List String)))
    (pageFetch : Nat → Option (List Anchor))
    (detailFetch : String → Option DetailMarkup) :
    Option (Option (List CsvRow)) :=
  match discovery with
  | none => none
  | some pagination =>
    let links := get_festival_links ((pageIdxs (get_total_pages pagination)).map pageFetch)
    if links.isEmpty then some none
    else
      let allData :=
        (links.map fun l => scrape_festival_details (detailFetch l.url)).filter
          fun r => r.name ≠ ""
      some (some (save_to_csv allData))

/-! ## Spec-side definitions and analysis views

The next definitions restate pieces of the spec in their own words (for
refinement comparisons) or give a stream view of the crawl fold used to
state its invariants. -/

/-- First-occurrence-wins deduplication by url, given the urls already
seen: the spec's description of the link collection's invariant. -/
def dedupFirst : List FestivalLink → List String → List FestivalLink
  | [], _ => []
  | f :: fs, seen =>
    if f.url ∈ seen then dedupFirst fs seen
    else f :: dedupFirst fs (f.url :: seen)

/-- The seen-url set after running `dedupFirst`. -/
def dedupSeen : List FestivalLink → List String → List String
  | [], seen => seen
  | f :: fs, seen =>
    if f.url ∈ seen then dedupSeen fs seen else dedupSeen fs (f.url :: seen)

/-- The links a list of anchors contributes before deduplication: those not
skipped by line 107, resolved and labelled. -/
def keptLinks (anchors : List Anchor) : List FestivalLink :=
  (anchors.filter fun a => !anchorExcluded a).map anchorLink

/-- One page's pre-dedup candidate links (after the `find_all` filter). -/
def keptStream (anchors : List Anchor) : List FestivalLink :=
  keptLinks (anchors.filter isCandidate)

/-- The concatenated pre-dedup candidate stream of a whole crawl (failed
pages contribute nothing). -/
def processedStream (pages : List (Option (List Anchor))) : List FestivalLink :=
  pages.foldr
    (fun p acc =>
      (match p with
       | none => []
       | some anchors => keptStream anchors) ++ acc)
    []

/-- Modelled from the spec: a target that "is exactly the listing root path
for that segment" — the site-relative root path of the `/festivals/` segment
or that root as an absolute URL on the crawl origin. -/
def isListingRoot (href : String) : Bool :=
  href = "/festivals/" || href = (origin ++ "/festivals/")

/-- Modelled from the spec: "the last non-empty path segment of the URL". -/
def lastNonEmptySeg (href : String) : String :=
  ((splitSlash href).filter (· ≠ "")).getLastD ""

/-- Modelled from the spec: the label "derive[d] from the last non-empty
path segment of the URL, replacing separators with spaces and
title-casing". -/
def specDerivedName (href : String) : String :=
  pyTitle (replaceDash (lastNonEmptySeg href))

/-- Modelled from the spec: an "absolute ... address" — one that carries the
http or https scheme. -/
def isAbsoluteUrl (s : String) : Bool :=
  startsWithStr s "http://" || startsWithStr s "https://"

/-! ## Pagination discovery (C4) -/

theorem foldl_max_mem (n : Int) (ns : List Int) : ns.foldl max n ∈ n :: ns := by
  induction ns generalizing n with
  | nil => simp
  | cons m ns ih =>
    simp only [List.foldl_cons]
    rcases List.mem_cons.mp (ih (max n m)) with h | h
    · rw [h]
      rcases max_choice n m with hc | hc <;> simp [hc]
    · exact List.mem_cons_of_mem _ (List.mem_cons_of_mem _ h)

theorem le_foldl_max (n : Int) (ns : List Int) : ∀ x ∈ n :: ns, x ≤ ns.foldl max n := by
  induction ns generalizing n with
  | nil => intro x hx; rw [List.mem_singleton] at hx; simp [hx]
  | cons m ns ih =>
    intro x hx
    simp only [List.foldl_cons]
    rcases List.mem_cons.mp hx with rfl | hx'
    · exact le_trans (le_max_left x m) (ih (max x m) _ (List.mem_cons_self _ _))
    · rcases List.mem_cons.mp hx' with rfl | hx''
      · exact le_trans (le_max_right n x) (ih (max n x) _ (List.mem_cons_self _ _))
      · exact ih (max n m) x (List.mem_cons_of_mem _ hx'')

/-- C4 (amended): `get_total_pages` is total (never raises); it returns 1
when no pagination control is present or when no page-number link text
parses as an integer, and otherwise the maximum of the parsed integer
tokens, silently skipping non-numeric tokens such as "next".  The claim's
"at least 1" part is refuted by `get_total_pages_zero_cex`: the maximum is
below 1 when every numeric token is, e.g. on the token "0". -/
theorem get_total_pages_amended (pag : Option (List String)) :
    (pag = none → get_total_pages pag = 1) ∧
    ∀ ts, pag = some ts →
      ((parsedTokens ts = [] → get_total_pages pag = 1) ∧
       (parsedTokens ts ≠ [] →
         get_total_pages pag ∈ parsedTokens ts ∧
         ∀ x ∈ parsedTokens ts, x ≤ get_total_pages pag)) := by
  constructor
  · rintro rfl; rfl
  · rintro ts rfl
    constructor
    · intro h; simp [get_total_pages, h]
    · intro h
      rcases he : parsedTokens ts with - | ⟨n, ns⟩
      · exact absurd he h
      · constructor
        · simpa [get_total_pages, he] using foldl_max_mem n ns
        · intro x hx
          simpa [get_total_pages, he] using le_foldl_max n ns x hx

/-- C4 counterexample: on a pagination control whose only page-number link
text is "0", `get_total_pages` returns 0, which is not ≥ 1. -/
theorem get_total_pages_zero_cex :
    get_total_pages (some ["0"]) = 0 ∧ ¬ (1 ≤ get_total_pages (some ["0"])) := by
  constructor <;> decide

/-- C4 witness: on tokens ["2", "next", "5"] the result is a parsed token
and equals 5 = max {2, 5}. -/
theorem get_total_pages_amended_w :
    get_total_pages (some ["2", "next", "5"]) ∈ parsedTokens ["2", "next", "5"] ∧
    get_total_pages (some ["2", "next", "5"]) = 5 := by
  have h := ((get_total_pages_amended (some ["2", "next", "5"])).2 ["2", "next", "5"]
    rfl).2 (by decide)
  exact ⟨h.1, by decide⟩

/-! ## Structured-data date formatting (C5, C10) -/

/-- Unfolding lemma: the date the structured stage computes. -/
theorem structuredStage_date (rec : FestivalRecord) (ev : JsonEvent) :
    (structuredStage rec (some (some ev))).date
      = if ev.startDate ≠ "" ∧ ev.endDate ≠ "" ∧ ev.startDate ≠ ev.endDate
        then ev.startDate ++ " - " ++ ev.endDate
        else if ev.startDate ≠ "" then ev.startDate else rec.date := rfl

/-- C5: in the structured stage, when both `startDate` and `endDate` are
present (non-empty) and differ, the date is `"{start} - {end}"`; when only
`startDate` is present, or when the two are equal, the date is `startDate`
alone with no range separator. -/
theorem structured_date_format (ev : JsonEvent) :
    (ev.startDate ≠ "" → ev.endDate ≠ "" → ev.startDate ≠ ev.endDate →
      (structuredStage emptyRecord (some (some ev))).date
        = ev.startDate ++ " - " ++ ev.endDate) ∧
    (ev.startDate ≠ "" → ev.startDate = ev.endDate →
      (structuredStage emptyRecord (some (some ev))).date = ev.startDate) ∧
    (ev.startDate ≠ "" → ev.endDate = "" →
      (structuredStage emptyRecord (some (some ev))).date = ev.startDate) := by
  refine ⟨fun h1 h2 h3 => ?_, fun h1 h2 => ?_, fun h1 h2 => ?_⟩
  · rw [structuredStage_date, if_pos ⟨h1, h2, h3⟩]
  · have hc : ¬ (ev.startDate ≠ "" ∧ ev.endDate ≠ "" ∧ ev.startDate ≠ ev.endDate) := by
      rintro ⟨-, -, hne⟩; exact hne h2
    rw [structuredStage_date, if_neg hc, if_pos h1]
  · have hc : ¬ (ev.startDate ≠ "" ∧ ev.endDate ≠ "" ∧ ev.startDate ≠ ev.endDate) := by
      rintro ⟨-, hne, -⟩; exact hne h2
    rw [structuredStage_date, if_neg hc, if_pos h1]

/-- C5 witness: the three branches at concrete events. -/
theorem structured_date_format_w :
    (structuredStage emptyRecord (some (some ⟨"F", "2026-06-01", "2026-06-03", none⟩))).date
      = "2026-06-01 - 2026-06-03" ∧
    (structuredStage emptyRecord (some (some ⟨"F", "2026-06-01", "2026-06-01", none⟩))).date
      = "2026-06-01" ∧
    (structuredStage emptyRecord (some (some ⟨"F", "2026-06-01", "", none⟩))).date
      = "2026-06-01" := by
  refine ⟨?_, ?_, ?_⟩
  · exact ((structured_date_format ⟨"F", "2026-06-01", "2026-06-03", none⟩).1
      (by decide) (by decide) (by decide)).trans (by decide)
  · exact (structured_date_format ⟨"F", "2026-06-01", "2026-06-01", none⟩).2.1
      (by decide) rfl
  · exact (structured_date_format ⟨"F", "2026-06-01", "", none⟩).2.2
      (by decide) rfl

/-- C10: when the structured block has no (or an empty) `startDate`, the
structured stage leaves `date` empty — `endDate` alone never fills it. -/
theorem structured_date_ignores_end_alone (ev : JsonEvent) (h : ev.startDate = "") :
    (structuredStage emptyRecord (some (some ev))).date = "" := by
  have hc : ¬ (ev.startDate ≠ "" ∧ ev.endDate ≠ "" ∧ ev.startDate ≠ ev.endDate) := by
    rintro ⟨hne, -, -⟩; exact hne h
  rw [structuredStage_date, if_neg hc, if_neg (fun hne => hne h)]
  rfl

/-- C10 witness: an event carrying only an `endDate`. -/
theorem structured_date_ignores_end_alone_w :
    (structuredStage emptyRecord (some (some ⟨"F", "", "2026-06-03", none⟩))).date = "" :=
  structured_date_ignores_end_alone ⟨"F", "", "2026-06-03", none⟩ rfl

/-! ## The HTML fallback stage (C1) -/

/-- C1 (amended): the HTML fallback block runs exactly when `name` or
`date` is still empty after the structured stage (so a record with both
filled — even with `location` empty — is returned untouched); when it runs
and a heading is present, `name` is overwritten with the heading text
*unconditionally*, even when the structured stage had filled it, while
`date` and `location` are filled from the first and second paragraph only
if still empty. -/
theorem extract_fallback_amended (rec : FestivalRecord) (hb : HeaderBlock) :
    (rec.name ≠ "" → rec.date ≠ "" → fallbackStage rec (some hb) = rec) ∧
    ((rec.name = "" ∨ rec.date = "") →
      (fallbackStage rec (some hb)).name
        = (match hb.h1 with | some t => pyStrip t | none => rec.name) ∧
      (fallbackStage rec (some hb)).date
        = (match hb.paragraphs with
           | p :: _ => if rec.date = "" then pyStrip p else rec.date
           | [] => rec.date) ∧
      (fallbackStage rec (some hb)).location
        = (match hb.paragraphs with
           | _ :: p :: _ => if rec.location = "" then pyStrip p else rec.location
           | _ => rec.location) ∧
      (fallbackStage rec (some hb)).artists = rec.artists) := by
  constructor
  · intro hn hd
    unfold fallbackStage
    rw [if_neg]
    rintro (h | h)
    · exact hn h
    · exact hd h
  · intro h
    unfold fallbackStage
    rw [if_pos h]
    exact ⟨rfl, rfl, rfl, rfl⟩

/-- C1 counterexample: the structured stage fills `name` with a non-empty
value, but the fallback stage (entered because `date` is empty) overwrites
it with the heading text — refuting "a field the structured stage filled
with a non-empty value is never overwritten by the fallback". -/
theorem extract_fallback_overwrite_cex :
    (scrape_festival_details (some ⟨some (some ⟨"Structured Name", "", "", none⟩),
        some ⟨some "Header Name", ["July 1", "Austin"]⟩, none⟩)).name = "Header Name" ∧
    (structuredStage emptyRecord (some (some ⟨"Structured Name", "", "", none⟩))).name
      = "Structured Name" := by
  constructor <;> decide

/-- C1 witness: a run of the fallback block (name empty) filling `name`,
keeping the non-empty `date`/`location`, and a skipped block (name and date
both non-empty). -/
theorem extract_fallback_amended_w :
    (fallbackStage ⟨"", "July 4", "Austin", []⟩ (some ⟨some " A ", ["d", "l"]⟩)).name = "A" ∧
    (fallbackStage ⟨"", "July 4", "Austin", []⟩ (some ⟨some " A ", ["d", "l"]⟩)).date
      = "July 4" ∧
    (fallbackStage ⟨"", "July 4", "Austin", []⟩ (some ⟨some " A ", ["d", "l"]⟩)).location
      = "Austin" ∧
    fallbackStage ⟨"N", "D", "L", []⟩ (some ⟨some " A ", ["d", "l"]⟩) = ⟨"N", "D", "L", []⟩ := by
  have h := (extract_fallback_amended ⟨"", "July 4", "Austin", []⟩ ⟨some " A ", ["d", "l"]⟩).2
    (Or.inl rfl)
  refine ⟨h.1.trans (by decide), h.2.1.trans (by decide), h.2.2.1.trans (by decide), ?_⟩
  exact (extract_fallback_amended ⟨"N", "D", "L", []⟩ ⟨some " A ", ["d", "l"]⟩).1
    (by decide) (by decide)

/-! ## CSV round trip (C6) -/

theorem data_append (a b : String) : (a ++ b).data = a.data ++ b.data := rfl

theorem mk_data (s : String) : String.mk s.data = s := rfl

theorem splitOnCS_append_sep :
    ∀ (l : List Char), hasSep l = false →
      ∀ rest, splitOnCS (l ++ ',' :: ' ' :: rest) = l :: splitOnCS rest
  | [], _, rest => by
    simp [splitOnCS]
  | [c], _, rest => by
    simp [splitOnCS]
  | c₁ :: c₂ :: l', h, rest => by
    have hb : ¬ (c₁ = ',' ∧ c₂ = ' ') ∧ hasSep (c₂ :: l') = false := by
      simpa [hasSep, not_and_or, Decidable.imp_iff_not_or] using h
    have ih := splitOnCS_append_sep (c₂ :: l') hb.2 rest
    simp only [List.cons_append] at ih ⊢
    simp only [splitOnCS]
    rw [if_neg hb.1, ih]

theorem splitOnCS_no_sep : ∀ (l : List Char), hasSep l = false → splitOnCS l = [l]
  | [], _ => rfl
  | [_], _ => rfl
  | c₁ :: c₂ :: l', h => by
    have hb : ¬ (c₁ = ',' ∧ c₂ = ' ') ∧ hasSep (c₂ :: l') = false := by
      simpa [hasSep, not_and_or, Decidable.imp_iff_not_or] using h
    have ih := splitOnCS_no_sep (c₂ :: l') hb.2
    simp only [splitOnCS]
    rw [if_neg hb.1, ih]

/-- Splitting undoes joining as long as no artist name contains the
separator `", "`. -/
theorem split_join_artists :
    ∀ (artists : List String), artists ≠ [] →
      (∀ a ∈ artists, hasSep a.data = false) →
      splitArtists (joinArtists artists) = artists
  | [], hne, _ => absurd rfl hne
  | [a], _, h => by
    simp [splitArtists, joinArtists,
      splitOnCS_no_sep a.data (h a (List.mem_singleton.mpr rfl)), mk_data]
  | a :: b :: rest, _, h => by
    have ih := split_join_artists (b :: rest) (List.cons_ne_nil _ _)
      (fun x hx => h x (List.mem_cons_of_mem _ hx))
    have hja : joinArtists (a :: b :: rest) = a ++ ", " ++ joinArtists (b :: rest) := rfl
    have hdata : (a ++ ", " ++ joinArtists (b :: rest)).data
        = a.data ++ ',' :: ' ' :: (joinArtists (b :: rest)).data := by
      rw [data_append, data_append, List.append_assoc]
      rfl
    rw [splitArtists, hja, hdata,
      splitOnCS_append_sep a.data (h a (List.mem_cons_self _ _)) _]
    rw [List.map_cons, mk_data]
    exact congrArg (a :: ·) ih

/-- C6 (amended): exporting records and re-reading the `Artists` column
split on `", "` reproduces each record's artist sequence, and there is one
row per record — provided each record's lineup is non-empty and no single
artist name itself contains the separator `", "`.  The unrestricted claim is
refuted by `csv_roundtrip_cex`. -/
theorem csv_roundtrip_amended (recs : List FestivalRecord)
    (h : ∀ r ∈ recs, r.artists ≠ [] ∧ ∀ a ∈ r.artists, hasSep a.data = false) :
    ((save_to_csv recs).map fun row => splitArtists row.artists)
      = recs.map FestivalRecord.artists ∧
    (save_to_csv recs).length = recs.length := by
  constructor
  · rw [save_to_csv, List.map_map]
    refine List.map_congr_left ?_
    intro r hr
    exact split_join_artists r.artists (h r hr).1 (h r hr).2
  · rw [save_to_csv, List.length_map]

/-- C6 counterexample: an artist name that itself contains `", "`
(e.g. "Earth, Wind & Fire") breaks the round trip — the re-read field
splits into two artists. -/
theorem csv_roundtrip_cex :
    save_to_csv [⟨"F", "D", "L", ["Earth, Wind & Fire"]⟩]
      = [⟨"F", "D", "L", "Earth, Wind & Fire"⟩] ∧
    splitArtists "Earth, Wind & Fire" = ["Earth", "Wind & Fire"] ∧
    ["Earth", "Wind & Fire"] ≠ ["Earth, Wind & Fire"] := by
  refine ⟨by decide, by decide, by decide⟩

/-- C6 witness: a two-artist record round-trips. -/
theorem csv_roundtrip_amended_w :
    ((save_to_csv [⟨"F", "D", "L", ["A", "B"]⟩]).map fun row => splitArtists row.artists)
      = [["A", "B"]] := by
  exact ((csv_roundtrip_amended [⟨"F", "D", "L", ["A", "B"]⟩] (by decide)).1).trans (by decide)

/-! ## Crawl-loop deduplication (C2) -/

theorem anchorLink_url (a : Anchor) : (anchorLink a).url = resolveHref a.href := rfl

theorem processAnchor_excluded {a : Anchor} (st : CrawlState)
    (h : anchorExcluded a = true) : processAnchor st a = st := by
  unfold processAnchor
  rw [if_pos h]

theorem processAnchor_seen {a : Anchor} (st : CrawlState)
    (h1 : anchorExcluded a = false) (h2 : resolveHref a.href ∈ st.seen) :
    processAnchor st a = st := by
  unfold processAnchor
  rw [if_neg (by simp [h1]), if_pos h2]

theorem processAnchor_new {a : Anchor} (st : CrawlState)
    (h1 : anchorExcluded a = false) (h2 : resolveHref a.href ∉ st.seen) :
    processAnchor st a
      = ⟨resolveHref a.href :: st.seen,
         st.links ++ [mkLinkResolved (resolveHref a.href) a.text]⟩ := by
  unfold processAnchor
  rw [if_neg (by simp [h1]), if_neg h2]

/-- Invariant of the per-anchor fold: the final state is the start state
extended with the first-occurrence-deduplicated kept links. -/
theorem foldl_processAnchor_eq :
    ∀ (l : List Anchor) (st : CrawlState),
      l.foldl processAnchor st
        = ⟨dedupSeen (keptLinks l) st.seen, st.links ++ dedupFirst (keptLinks l) st.seen⟩
  | [], st => by
    cases st
    simp [keptLinks, dedupSeen, dedupFirst]
  | a :: l, st => by
    by_cases hx : anchorExcluded a = true
    · have hk : keptLinks (a :: l) = keptLinks l := by
        simp [keptLinks, List.filter_cons, hx]
      rw [List.foldl_cons, processAnchor_excluded st hx, foldl_processAnchor_eq l st, hk]
    · have hx' : anchorExcluded a = false := by
        simpa using hx
      have hk : keptLinks (a :: l) = anchorLink a :: keptLinks l := by
        simp [keptLinks, List.filter_cons, hx']
      by_cases hs : resolveHref a.href ∈ st.seen
      · rw [List.foldl_cons, processAnchor_seen st hx' hs, foldl_processAnchor_eq l st, hk]
        have hu : (anchorLink a).url ∈ st.seen := by rw [anchorLink_url]; exact hs
        rw [show dedupSeen (anchorLink a :: keptLinks l) st.seen
              = dedupSeen (keptLinks l) st.seen by simp [dedupSeen, hu],
            show dedupFirst (anchorLink a :: keptLinks l) st.seen
              = dedupFirst (keptLinks l) st.seen by simp [dedupFirst, hu]]
      · rw [List.foldl_cons, processAnchor_new st hx' hs, foldl_processAnchor_eq l _, hk]
        have hu : (anchorLink a).url ∉ st.seen := by rw [anchorLink_url]; exact hs
        rw [show dedupSeen (anchorLink a :: keptLinks l) st.seen
              = dedupSeen (keptLinks l) ((anchorLink a).url :: st.seen) by
            simp [dedupSeen, hu],
            show dedupFirst (anchorLink a :: keptLinks l) st.seen
              = anchorLink a :: dedupFirst (keptLinks l) ((anchorLink a).url :: st.seen) by
            simp [dedupFirst, hu]]
        simp only [List.append_assoc, List.singleton_append]
        exact rfl

theorem dedupSeen_append :
    ∀ (xs ys : List FestivalLink) (seen : List String),
      dedupSeen (xs ++ ys) seen = dedupSeen ys (dedupSeen xs seen)
  | [], _, _ => rfl
  | x :: xs, ys, seen => by
    by_cases h : x.url ∈ seen <;>
      simp [dedupSeen, h, dedupSeen_append xs ys]

theorem dedupFirst_append :
    ∀ (xs ys : List FestivalLink) (seen : List String),
      dedupFirst (xs ++ ys) seen
        = dedupFirst xs seen ++ dedupFirst ys (dedupSeen xs seen)
  | [], _, _ => rfl
  | x :: xs, ys, seen => by
    by_cases h : x.url ∈ seen <;>
      simp [dedupFirst, dedupSeen, h, dedupFirst_append xs ys]

/-- Invariant of the page fold. -/
theorem foldl_crawlStep_eq :
    ∀ (pages : List (Option (List Anchor))) (st : CrawlState),
      pages.foldl crawlStep st
        = ⟨dedupSeen (processedStream pages) st.seen,
           st.links ++ dedupFirst (processedStream pages) st.seen⟩
  | [], st => by
    cases st
    simp [processedStream, dedupSeen, dedupFirst]
  | none :: ps, st => by
    have h : processedStream (none :: ps) = processedStream ps := rfl
    rw [List.foldl_cons, show crawlStep st none = st from rfl, foldl_crawlStep_eq ps st, h]
  | some anchors :: ps, st => by
    have h : processedStream (some anchors :: ps)
        = keptStream anchors ++ processedStream ps := rfl
    have hc : crawlStep st (some anchors)
        = ⟨dedupSeen (keptStream anchors) st.seen,
           st.links ++ dedupFirst (keptStream anchors) st.seen⟩ :=
      foldl_processAnchor_eq (anchors.filter isCandidate) st
    rw [List.foldl_cons, hc, foldl_crawlStep_eq ps _, h, dedupSeen_append,
      dedupFirst_append, List.append_assoc]

/-- The crawl output is exactly the first-wins deduplication of the
pre-dedup candidate stream. -/
theorem gfl_eq_dedupFirst (pages : List (Option (List Anchor))) :
    get_festival_links pages = dedupFirst (processedStream pages) [] := by
  unfold get_festival_links
  rw [foldl_crawlStep_eq]
  rfl

theorem dedupFirst_nodup :
    ∀ (fs : List FestivalLink) (seen : List String),
      (∀ f ∈ dedupFirst fs seen, f.url ∉ seen) ∧
        ((dedupFirst fs seen).map FestivalLink.url).Nodup
  | [], seen => by
    simp [dedupFirst]
  | f :: fs, seen => by
    by_cases h : f.url ∈ seen
    · simp only [dedupFirst, if_pos h]
      exact dedupFirst_nodup fs seen
    · simp only [dedupFirst, if_neg h]
      have ih := dedupFirst_nodup fs (f.url :: seen)
      constructor
      · intro g hg
        rcases List.mem_cons.mp hg with rfl | hg'
        · exact h
        · intro hsin
          exact ih.1 g hg' (List.mem_cons_of_mem _ hsin)
      · rw [List.map_cons, List.nodup_cons]
        constructor
        · intro hmem
          rcases List.mem_map.mp hmem with ⟨g, hg, hgu⟩
          exact ih.1 g hg (by rw [hgu]; exact List.mem_cons_self _ _)
        · exact ih.2

theorem dedupFirst_sublist :
    ∀ (fs : List FestivalLink) (seen : List String), List.Sublist (dedupFirst fs seen) fs
  | [], _ => List.Sublist.refl _
  | f :: fs, seen => by
    by_cases h : f.url ∈ seen
    · simp only [dedupFirst, if_pos h]
      exact List.Sublist.cons f (dedupFirst_sublist fs seen)
    · simp only [dedupFirst, if_neg h]
      exact List.Sublist.cons₂ f (dedupFirst_sublist fs (f.url :: seen))

/-- C2: the returned link collection is the first-wins deduplication (by
absolute url) of the stream of candidate links in page-and-document order:
no two entries share a url, later duplicates are dropped, and the result is
a subsequence of the stream, so first-seen order is preserved. -/
theorem crawl_links_dedup (pages : List (Option (List Anchor))) :
    get_festival_links pages = dedupFirst (processedStream pages) [] ∧
    ((get_festival_links pages).map FestivalLink.url).Nodup ∧
    List.Sublist (get_festival_links pages) (processedStream pages) := by
  refine ⟨gfl_eq_dedupFirst pages, ?_, ?_⟩
  · rw [gfl_eq_dedupFirst]
    exact (dedupFirst_nodup _ _).2
  · rw [gfl_eq_dedupFirst]
    exact dedupFirst_sublist _ _

/-! ## Error containment across the run (C3) -/

theorem crawlStep_fill (st : CrawlState) (p : Option (List Anchor)) :
    crawlStep st (some (p.getD [])) = crawlStep st p := by
  cases p <;> rfl

theorem foldl_crawlStep_fill :
    ∀ (ps : List (Option (List Anchor))) (st : CrawlState),
      (ps.map fun p => some (p.getD [])).foldl crawlStep st = ps.foldl crawlStep st
  | [], _ => rfl
  | p :: ps, st => by
    rw [List.map_cons, List.foldl_cons, List.foldl_cons, crawlStep_fill,
      foldl_crawlStep_fill ps]

theorem gfl_fill_failed (ps : List (Option (List Anchor))) :
    get_festival_links (ps.map fun p => some (p.getD [])) = get_festival_links ps := by
  unfold get_festival_links
  rw [foldl_crawlStep_fill]

/-- C3 (amended): once the initial discovery fetch has succeeded, the run
always completes: a failed listing page inside the loop behaves exactly as a
page with zero links, a failed detail fetch yields the untouched empty
record, and an export is produced precisely when the collected link list is
non-empty (with no links, `main` returns early without exporting).  The
unqualified claim is refuted by `run_abort_cex`: the discovery fetch is not
inside any handler, and its failure aborts the run. -/
theorem run_resilience_amended (pag : Option (List String))
    (pageFetch : Nat → Option (List Anchor))
    (detailFetch : String → Option DetailMarkup) :
    (runScraper (some pag) pageFetch detailFetch).isSome = true ∧
    runScraper (some pag) pageFetch detailFetch
      = runScraper (some pag) (fun i => some ((pageFetch i).getD [])) detailFetch ∧
    scrape_festival_details none = emptyRecord ∧
    (runScraper (some pag) pageFetch detailFetch = some none ↔
      get_festival_links ((pageIdxs (get_total_pages pag)).map pageFetch) = []) := by
  refine ⟨?_, ?_, rfl, ?_⟩
  · simp only [runScraper]
    split <;> rfl
  · simp only [runScraper]
    have h : get_festival_links
          ((pageIdxs (get_total_pages pag)).map fun i => some ((pageFetch i).getD []))
        = get_festival_links ((pageIdxs (get_total_pages pag)).map pageFetch) := by
      rw [show ((pageIdxs (get_total_pages pag)).map fun i => some ((pageFetch i).getD []))
            = ((pageIdxs (get_total_pages pag)).map pageFetch).map fun p => some (p.getD [])
          by rw [List.map_map]; rfl]
      exact gfl_fill_failed _
    rw [h]
  · simp only [runScraper]
    by_cases h : (get_festival_links ((pageIdxs (get_total_pages pag)).map pageFetch)).isEmpty
    · rw [if_pos h]
      simpa using List.isEmpty_iff.mp h
    · rw [if_neg h]
      constructor
      · intro hx
        exact absurd (Option.some.inj hx) (by simp)
      · intro hx
        exact absurd (List.isEmpty_iff.mpr hx) h

/-- C3 counterexample: a fetch failure on the very first (discovery) load of
the listing page aborts the whole run — it is not caught at a page boundary —
and a run whose every loop page fails completes without producing any
export.  Both refute "no such failure ever aborts the overall run, which
always completes and produces an export". -/
theorem run_abort_cex :
    runScraper none (fun _ => some []) (fun _ => none) = none ∧
    runScraper (some none) (fun _ => none) (fun _ => none) = some none := by
  exact ⟨rfl, rfl⟩

/-! ## Candidate-anchor exclusion (C7) -/

theorem ne_empty_of_contains {s : String} (h : strContains "/festivals/" s = true) :
    s ≠ "" := by
  rintro rfl
  exact absurd h (by decide)

/-- C7 (amended): among anchors whose target contains the `/festivals/`
segment, an anchor is excluded if and only if its target *ends with*
`/festivals/` — a strictly broader test than "is exactly the listing root
path": every exact-root target is excluded, but so are others, see
`anchor_exclusion_cex`. -/
theorem anchor_exclusion_amended (a : Anchor) (h : isCandidate a = true) :
    (anchorExcluded a = true ↔ endsWithStr a.href "/festivals/" = true) ∧
    (isListingRoot a.href = true → anchorExcluded a = true) := by
  have hne : a.href ≠ "" := ne_empty_of_contains h
  constructor
  · unfold anchorExcluded
    constructor
    · intro hx
      rcases Bool.or_eq_true_iff.mp hx with h1 | h1
      · exact absurd (of_decide_eq_true h1) hne
      · exact h1
    · intro hx
      exact Bool.or_eq_true_iff.mpr (Or.inr hx)
  · intro hr
    unfold anchorExcluded
    rcases Bool.or_eq_true_iff.mp hr with h1 | h1
    · rw [of_decide_eq_true h1]
      decide
    · rw [of_decide_eq_true h1]
      decide

/-- C7 counterexample: an anchor whose target contains `/festivals/` and is
*not* the listing root path is nevertheless excluded (dropped from the
collected links), because the code tests `endswith('/festivals/')`. -/
theorem anchor_exclusion_cex :
    get_festival_links
        [some [⟨"https://www.musicfestivalwizard.com/summer/festivals/", "Summer Festivals"⟩]]
      = [] ∧
    isListingRoot "https://www.musicfestivalwizard.com/summer/festivals/" = false ∧
    isCandidate ⟨"https://www.musicfestivalwizard.com/summer/festivals/", "Summer Festivals"⟩
      = true := by
  refine ⟨by decide, by decide, by decide⟩

/-- C7 witness: a real detail link is kept, the root index link is
excluded. -/
theorem anchor_exclusion_amended_w :
    anchorExcluded ⟨"/festivals/foo/", "Foo"⟩ = false ∧
    anchorExcluded ⟨"/festivals/", "idx"⟩ = true := by
  have h1 := (anchor_exclusion_amended ⟨"/festivals/foo/", "Foo"⟩ (by decide)).1
  have h2 := (anchor_exclusion_amended ⟨"/festivals/", "idx"⟩ (by decide)).2
  constructor
  · refine Bool.eq_false_iff.mpr fun hx => ?_
    exact absurd (h1.mp hx) (by decide)
  · exact h2 (by decide)

/-! ## Label derivation (C8) -/

/-- C8 (amended): the label is the trimmed anchor text exactly when that
text has length ≥ 3; otherwise it is derived — hyphens to spaces,
title-cased — from `href.split('/')[-2]`, the *second-to-last*
slash-separated component of the resolved URL (equal to the last non-empty
path segment only when the URL ends in a slash; `link_label_cex` shows the
difference on a URL without a trailing slash). -/
theorem link_label_amended (a : Anchor) :
    (3 ≤ (pyStrip a.text).length → (anchorLink a).name = pyStrip a.text) ∧
    ((pyStrip a.text).length < 3 →
      (anchorLink a).name = pyTitle (replaceDash (penultimateSeg (resolveHref a.href)))) := by
  constructor
  · intro h3
    show (if pyStrip a.text = "" ∨ (pyStrip a.text).length < 3
          then pyTitle (replaceDash (penultimateSeg (resolveHref a.href)))
          else pyStrip a.text) = pyStrip a.text
    rw [if_neg]
    rintro (he | hl)
    · rw [he] at h3
      exact absurd h3 (by decide)
    · exact absurd h3 (not_le.mpr hl)
  · intro hl
    show (if pyStrip a.text = "" ∨ (pyStrip a.text).length < 3
          then pyTitle (replaceDash (penultimateSeg (resolveHref a.href)))
          else pyStrip a.text)
        = pyTitle (replaceDash (penultimateSeg (resolveHref a.href)))
    rw [if_pos (Or.inr hl)]

/-- C8 counterexample: with anchor text "X" (too short) and the trailing
-slash-free URL `.../festivals/my-fest`, the code derives "Festivals" from
`split('/')[-2]`, while the spec's "last non-empty path segment" rule would
derive "My Fest". -/
theorem link_label_cex :
    get_festival_links
        [some [⟨"https://www.musicfestivalwizard.com/festivals/my-fest", "X"⟩]]
      = [⟨"Festivals", "https://www.musicfestivalwizard.com/festivals/my-fest"⟩] ∧
    specDerivedName "https://www.musicfestivalwizard.com/festivals/my-fest" = "My Fest" ∧
    "Festivals" ≠ "My Fest" := by
  refine ⟨by decide, by decide, by decide⟩

/-- C8 witness: a long-enough anchor text is kept verbatim; a short one is
derived from the URL (here with a trailing slash, where the two derivation
rules agree). -/
theorem link_label_amended_w :
    (anchorLink ⟨"/festivals/my-fest/", "Cool Fest"⟩).name = "Cool Fest" ∧
    (anchorLink ⟨"/festivals/my-fest/", "X"⟩).name = "My Fest" := by
  constructor
  · exact ((link_label_amended ⟨"/festivals/my-fest/", "Cool Fest"⟩).1 (by decide)).trans
      (by decide)
  · exact ((link_label_amended ⟨"/festivals/my-fest/", "X"⟩).2 (by decide)).trans
      (by decide)

/-! ## URL resolution (C9) -/

theorem isPrefixOf_append_self : ∀ (l t : List Char), l.isPrefixOf (l ++ t) = true
  | [], _ => by simp [List.isPrefixOf]
  | a :: l, t => by
    simp [List.isPrefixOf, isPrefixOf_append_self l t]

/-- Every link in the pre-dedup stream comes from a *candidate* anchor
(one passing the `find_all` href filter) of a successfully fetched page. -/
theorem mem_processedStream :
    ∀ (pages : List (Option (List Anchor))) (f : FestivalLink),
      f ∈ processedStream pages →
      ∃ p ∈ pages, ∃ anchors, p = some anchors ∧
        ∃ a ∈ anchors, isCandidate a = true ∧ f = anchorLink a
  | [], f, h => absurd h (by simp [processedStream])
  | none :: ps, f, h => by
    have h' : f ∈ processedStream ps := h
    obtain ⟨p, hp, as, hpe, a, ha, hca, hfe⟩ := mem_processedStream ps f h'
    exact ⟨p, List.mem_cons_of_mem _ hp, as, hpe, a, ha, hca, hfe⟩
  | some anchors :: ps, f, h => by
    have h' : f ∈ keptStream anchors ∨ f ∈ processedStream ps := by
      have hsplit : processedStream (some anchors :: ps)
          = keptStream anchors ++ processedStream ps := rfl
      rw [hsplit] at h
      exact List.mem_append.mp h
    rcases h' with h' | h'
    · obtain ⟨a, ha, hfe⟩ := List.mem_map.mp h'
      have ha' : a ∈ anchors.filter isCandidate := List.mem_of_mem_filter ha
      exact ⟨some anchors, List.mem_cons_self _ _, anchors, rfl, a,
        (List.mem_filter.mp ha').1, (List.mem_filter.mp ha').2, hfe.symm⟩
    · obtain ⟨p, hp, as, hpe, a, ha, hca, hfe⟩ := mem_processedStream ps f h'
      exact ⟨p, List.mem_cons_of_mem _ hp, as, hpe, a, ha, hca, hfe⟩

theorem absolute_resolveHref (href : String)
    (h : startsWithStr href "/" = true ∨ isAbsoluteUrl href = true) :
    isAbsoluteUrl (resolveHref href) = true := by
  unfold resolveHref
  by_cases hs : startsWithStr href "/" = true
  · rw [if_pos hs]
    unfold isAbsoluteUrl startsWithStr
    refine Bool.or_eq_true_iff.mpr (Or.inr ?_)
    rw [data_append,
      show origin.data = "https://".data ++ "www.musicfestivalwizard.com".data by decide,
      List.append_assoc]
    exact isPrefixOf_append_self _ _
  · rw [if_neg hs]
    rcases h with h | h
    · exact absurd h hs
    · exact h

/-- C9 (amended): only targets beginning with `/` are resolved (by
prefixing the fixed site origin, before the dedup comparison); targets
already carrying a scheme pass through unchanged and are absolute, so every
stored url is absolute *provided* every candidate target (an anchor href
containing `/festivals/` — non-candidate anchors such as `href="#"` are
filtered out and irrelevant) is root-relative or already absolute.  A
scheme-less relative candidate target such as `en/festivals/foo` is stored
unresolved — see `relative_url_cex`. -/
theorem links_absolute_amended (pages : List (Option (List Anchor)))
    (h : ∀ p ∈ pages, ∀ a ∈ p.getD [], isCandidate a = true →
      startsWithStr a.href "/" = true ∨ isAbsoluteUrl a.href = true) :
    (∀ href, startsWithStr href "/" = true → resolveHref href = origin ++ href) ∧
    ∀ l ∈ get_festival_links pages, isAbsoluteUrl l.url = true := by
  constructor
  · intro href hs
    unfold resolveHref
    rw [if_pos hs]
  · intro l hl
    have hl' : l ∈ processedStream pages := by
      rw [gfl_eq_dedupFirst] at hl
      exact (dedupFirst_sublist _ _).subset hl
    obtain ⟨p, hp, as, hpe, a, ha, hca, hfe⟩ := mem_processedStream pages l hl'
    have hh := h p hp a (by rw [hpe]; exact ha) hca
    rw [hfe, anchorLink_url]
    exact absolute_resolveHref a.href hh

/-- C9 counterexample: a candidate anchor whose target is relative but does
not begin with `/` is stored as-is — the link collection then contains a
non-absolute url. -/
theorem relative_url_cex :
    get_festival_links [some [⟨"en/festivals/foo", "Foo Fest"⟩]]
      = [⟨"Foo Fest", "en/festivals/foo"⟩] ∧
    isAbsoluteUrl "en/festivals/foo" = false ∧
    startsWithStr "en/festivals/foo" "/" = false := by
  refine ⟨by decide, by decide, by decide⟩

/-- C9 witness: a root-relative candidate target is resolved against the
origin and the stored url is absolute, on a page that also carries a
non-candidate anchor (`href="#"`), which the hypothesis does not
constrain. -/
theorem links_absolute_amended_w :
    (FestivalLink.url ⟨"Fest A", "https://www.musicfestivalwizard.com/festivals/a/"⟩
        ∈ (get_festival_links
            [some [⟨"#", "Top"⟩, ⟨"/festivals/a/", "Fest A"⟩]]).map FestivalLink.url) ∧
    isAbsoluteUrl
      (FestivalLink.url ⟨"Fest A", "https://www.musicfestivalwizard.com/festivals/a/"⟩)
      = true := by
  refine ⟨by decide, ?_⟩
  exact (links_absolute_amended [some [⟨"#", "Top"⟩, ⟨"/festivals/a/", "Fest A"⟩]]
      (by decide)).2
    ⟨"Fest A", "https://www.musicfestivalwizard.com/festivals/a/"⟩ (by decide)

end Scraper
